import Mathlib

/-!
Shallow embedding of `avr/avr.go` (package avr, a client for Denon AVR
receivers over TCP).

The Go program is a handle (`Amp`) with a mutex-guarded state record, a
single control-loop goroutine draining a request channel, an asynchronous
connect goroutine, and a reader goroutine per live connection.  We embed
the mutex-guarded state as a structure `Amp`, each lock-section of the Go
code as a pure function on `Amp` (returning, besides the new state, the
channel sends it performs), and the concurrent system as a step relation
over events.  Channels are identified by `Nat` ids; a Go `error` is
`Option Err` with `none` for `nil`.

Two ghost fields track runtime facts the proofs need: `attemptInFlight`
records that a `go a.connect()` goroutine has been launched and has not
yet completed, and `reqcCloseCount` counts executions of `close(a.reqc)`.
-/

namespace Avr

/-- Errors are modelled as their message strings; a Go `nil` error is
`none : Option Err`. -/
abbrev Err := String

/-- The `state` type of avr.go: `unconnected`, `connecting`, `connected`. -/
inductive State where
  | unconnected
  | connecting
  | connected
deriving DecidableEq, Repr

/-- The `command` discriminator of avr.go: `pingCmd` or `rawCmd`. -/
inductive Command where
  | pingCmd
  | rawCmd
deriving DecidableEq, Repr

/-- The `request` struct: a reply-channel id, the command, and the raw
payload (used only for `rawCmd`).  Payload bytes are modelled as
`List Char`. -/
structure Request where
  ch : Nat
  cmd : Command
  raw : List Char
deriving DecidableEq, Repr

/-- The mutex-guarded fields of the Go `Amp` struct, plus two ghost
fields (`attemptInFlight`, `reqcCloseCount`) recording runtime facts. -/
structure Amp where
  closed : Bool
  state : State
  stateListeners : List Nat
  conn : Option Nat
  err : Option Err
  attemptInFlight : Bool
  reqcCloseCount : Nat
deriving DecidableEq, Repr

/-- The `Amp` literal built by `New` before it calls `startConnect`. -/
def newAmp : Amp :=
  { closed := false
    state := .unconnected
    stateListeners := []
    conn := none
    err := none
    attemptInFlight := false
    reqcCloseCount := 0 }

/-- Side effects of one `Close` call: whether `close(a.reqc)` ran, and
which connection's stream (if any) got `c.Close()`d. -/
structure CloseEffects where
  closedReqc : Bool
  closedConn : Option Nat
deriving DecidableEq, Repr

/-- Function `Amp.Close`: under the lock, if already closed return nil; otherwise
set `closed`, close the request channel, and close the current
connection's stream if one exists.  Returns the Go `error` (always nil)
and the effects performed. -/
def close (a : Amp) : Amp × Option Err × CloseEffects :=
  if a.closed then
    (a, none, ⟨false, none⟩)
  else
    ({ a with closed := true, reqcCloseCount := a.reqcCloseCount + 1 },
     none, ⟨true, a.conn⟩)

/-- Function `Amp.startConnect`: under the lock, a no-op if closed or not
`unconnected`; otherwise move to `connecting` and launch a connect
goroutine (recorded in the ghost `attemptInFlight`). -/
def startConnect (a : Amp) : Amp :=
  if a.closed || a.state != .unconnected then a
  else { a with state := .connecting, attemptInFlight := true }

/-- Function `Amp.setState` (called with the lock held): set the state from the
error, record the error, send it to every registered listener, and clear
the listener list.  The second component lists the sends performed, as
(channel id, value) pairs in list order. -/
def setState (e : Option Err) (a : Amp) : Amp × List (Nat × Option Err) :=
  ({ a with
      state := if e = none then .connected else .unconnected
      err := e
      stateListeners := [] },
   a.stateListeners.map (fun ch => (ch, e)))

/-- Outcome of one `addStateListener` call.  `registered`: the channel
was appended to the listener list and the call returned.  `blockedSend`:
the else branch executed `ch <- a.err`; `ch` is the unbuffered channel
its caller `handlePing` just created, whose only receive is sequenced
after this call returns, and the send runs with the mutex held — it can
never complete, so the calling (loop) goroutine blocks forever inside
the lock section.  The payload records the value the send would have
delivered (it is never received). -/
inductive ListenerOutcome where
  | registered
  | blockedSend (e : Option Err)
deriving DecidableEq, Repr

/-- Function `Amp.addStateListener`: under the lock, if `connecting` append the
channel to the listeners and return; otherwise attempt to send the
recorded last error on the channel.  As invoked by its only caller
`handlePing`, that send has no ready receiver and holds the mutex, so it
never completes: the outcome distinguishes the two paths, and no shared
field is written on the blocked path. -/
def addStateListener (ch : Nat) (a : Amp) : Amp × ListenerOutcome :=
  if a.state = .connecting then
    ({ a with stateListeners := a.stateListeners ++ [ch] }, .registered)
  else
    (a, .blockedSend a.err)

/-- The tail of `Amp.connect` after `net.Dial` returns, run under the
lock: `setState(err)`; on failure stop, on success install the new
connection (and start its reader goroutine, not modelled).  `newConnId`
identifies the freshly dialled connection.  The ghost `attemptInFlight`
is cleared: this goroutine is finishing. -/
def connectComplete (e : Option Err) (newConnId : Nat) (a : Amp) :
    Amp × List (Nat × Option Err) :=
  let p := setState e { a with attemptInFlight := false }
  match e with
  | some _ => p
  | none => ({ p.1 with conn := some newConnId }, p.2)

/-- Outcome of the caller-side enqueue step of `Ping`/`SendCommand`. -/
inductive EnqueueOutcome where
  | panicked
  | enqueued
deriving DecidableEq, Repr

/-- The caller side of `Ping` and `SendCommand` up to delivering the
request: call `startConnect`, then send the request on `a.reqc`.  In Go,
a send on a closed channel panics at run time; `Close` closes `a.reqc`
exactly when it sets `closed`, so the send panics iff the handle is
closed. -/
def enqueueRequest (a : Amp) : Amp × EnqueueOutcome :=
  let a1 := startConnect a
  if a1.closed then (a1, .panicked) else (a1, .enqueued)

/-- The wire delimiter: a single carriage-return byte. -/
def delim : Char := '\r'

/-- Predicate for `strings.HasSuffix(raw, "\r")`: whether the payload's last byte is
the delimiter. -/
def endsWithCR (raw : List Char) : Bool :=
  match raw.getLast? with
  | some c => c = delim
  | none => false

/-- The bytes `handleRaw` hands to the buffered writer: the payload, with
the delimiter appended when absent. -/
def encodeRaw (raw : List Char) : List Char :=
  if endsWithCR raw then raw else raw ++ [delim]

/-- The "not connected" error `handleRaw` replies with. -/
def notConnectedErr : Err := "not connected"

/-- What one `handleRaw` call did: the response sent on `req.ch`, the
bytes handed to the buffered writer (`none` if nothing was written), and
whether `Flush` was called. -/
structure RawResult where
  reply : Option Err
  wrote : Option (List Char)
  flushed : Bool
deriving DecidableEq, Repr

/-- Function `Amp.handleRaw` (run in the loop goroutine): snapshot state and conn
under the lock; if not `connected`, reply "not connected" and stop;
otherwise append the delimiter if missing, write, flush, reply nil.  The
parameters `wErr` and `fErr` are the `error` results of
`conn.bufw.WriteString` and `conn.bufw.Flush`; the Go code discards both
without reading them. -/
def handleRaw (req : Request) (wErr fErr : Option Err) (a : Amp) : RawResult :=
  if a.state != .connected then
    { reply := some notConnectedErr, wrote := none, flushed := false }
  else
    { reply := none, wrote := some (encodeRaw req.raw), flushed := true }

/-- What one `handlePing` call did before blocking: the resulting shared
state, the responses it actually sent on `req.ch`, whether it registered
a waiter whose final reply awaits the in-flight attempt's completion,
and whether execution wedged inside `addStateListener`'s unbuffered send
(mutex held) without ever reaching the final reply. -/
structure PingStep where
  amp : Amp
  immediateReplies : List (Option Err)
  registeredWaiter : Bool
  deadlocked : Bool
deriving DecidableEq, Repr

/-- Function `Amp.handlePing` (run in the loop goroutine): snapshot the state; if
`connected`, reply nil at once; then `startConnect`, make a fresh
unbuffered channel `ch`, `addStateListener ch`, and reply with the value
received on `ch`.  When the listener registers, the loop blocks on `ch`
until the attempt completes and then sends the final reply.  When
`addStateListener` takes its else branch, its send on `ch` never
completes: execution never returns to `handlePing`, the final reply is
never sent, and the loop goroutine is deadlocked holding the mutex. -/
def handlePing (ch : Nat) (a : Amp) : PingStep :=
  let first : List (Option Err) := if a.state = .connected then [none] else []
  let a1 := startConnect a
  match addStateListener ch a1 with
  | (a2, .registered) =>
      { amp := a2, immediateReplies := first, registeredWaiter := true,
        deadlocked := false }
  | (a2, .blockedSend _) =>
      { amp := a2, immediateReplies := first, registeredWaiter := false,
        deadlocked := true }

/-- Atomic events of the concurrent system.  Each is one lock-section of
the Go code (or one loop iteration): a `Close` call, a `startConnect`
call (from `New`, `Ping`, `SendCommand`, or the loop's reaction to a
loss signal), the completion of an in-flight connect goroutine, an
`addStateListener` call, and the loop handling a raw request, a ping
request, an amp line, or a connection-loss signal. -/
inductive Event where
  | closeEv
  | startConnectEv
  | completeEv (e : Option Err) (newConnId : Nat)
  | addListenerEv (ch : Nat)
  | rawEv (req : Request) (wErr fErr : Option Err)
  | pingEv (ch : Nat)
  | lineEv (l : List Char)
  | connLossEv
deriving DecidableEq, Repr

/-- The state transition of one event.  `completeEv` can physically occur
only while a connect goroutine is outstanding, so it is guarded by the
ghost `attemptInFlight`; `rawEv` and `lineEv` read but never write the
shared state. -/
def stepE (ev : Event) (a : Amp) : Amp :=
  match ev with
  | .closeEv => (close a).1
  | .startConnectEv => startConnect a
  | .completeEv e id => if a.attemptInFlight then (connectComplete e id a).1 else a
  | .addListenerEv ch => (addStateListener ch a).1
  | .rawEv _ _ _ => a
  | .pingEv ch => (handlePing ch a).amp
  | .lineEv _ => a
  | .connLossEv => startConnect a

/-- States reachable from the freshly constructed handle. -/
inductive Reachable : Amp → Prop where
  | init : Reachable newAmp
  | step : ∀ (ev : Event) (a : Amp), Reachable a → Reachable (stepE ev a)

/-- The inductive invariant of the handle: a connect goroutine is
outstanding exactly while `connecting`; `connected` implies the recorded
error is nil; the listener list is non-empty only while `connecting`;
and the request channel has been closed exactly once iff `closed`. -/
def Inv (a : Amp) : Prop :=
  (a.attemptInFlight = true ↔ a.state = .connecting) ∧
  (a.state = .connected → a.err = none) ∧
  (a.stateListeners ≠ [] → a.state = .connecting) ∧
  (a.reqcCloseCount = if a.closed then 1 else 0)

/-- The transition relation the spec allows on `connectionState`: stay
put, or `unconnected → connecting`, or `connecting → connected`, or
`connecting → unconnected`. -/
def stateTransOK (s t : State) : Prop :=
  s = t ∨
  (s = .unconnected ∧ t = .connecting) ∨
  (s = .connecting ∧ (t = .connected ∨ t = .unconnected))

instance (s t : State) : Decidable (stateTransOK s t) := by
  unfold stateTransOK; infer_instance

/-- Wire bytes one event makes the loop emit: only a raw request
processed while `connected` writes (the whole encoded command, via one
`WriteString` and `Flush` from the loop goroutine). -/
def wireOf (ev : Event) (a : Amp) : List Char :=
  match ev with
  | .rawEv req wErr fErr => ((handleRaw req wErr fErr a).wrote).getD []
  | _ => []

/-- Run the system over an event sequence (the serialization order of
the loop's channel receives, interleaved with the other goroutines' lock
sections), collecting the final state and the concatenated wire trace. -/
def runTrace : List Event → Amp → Amp × List Char
  | [], a => (a, [])
  | ev :: rest, a =>
      let w := wireOf ev a
      let q := runTrace rest (stepE ev a)
      (q.1, w ++ q.2)

/-- The whole commands written during a run, each as one block, in
arrival order. -/
def writtenCommands : List Event → Amp → List (List Char)
  | [], _ => []
  | ev :: rest, a =>
      (match ev with
       | .rawEv req _ _ =>
           if a.state = .connected then [encodeRaw req.raw] else []
       | _ => []) ++ writtenCommands rest (stepE ev a)

/-- The encoded command a raw-request event carries, if any. -/
def rawEnc : Event → Option (List Char)
  | .rawEv req _ _ => some (encodeRaw req.raw)
  | _ => none

/-- A handle right after its first connect attempt succeeded (connection
id 0): `connected`, with the connection installed. -/
def ampConnected : Amp :=
  stepE (.completeEv none 0) (stepE .startConnectEv newAmp)

/-- A handle whose first connect attempt is still in flight and on which
two Probe waiters (channels 1 and 2) are registered. -/
def ampConnecting2 : Amp :=
  stepE (.addListenerEv 2) (stepE (.addListenerEv 1) (stepE .startConnectEv newAmp))

/-- A handle that was closed while its first connect attempt was in
flight. -/
def ampAfterClose : Amp :=
  stepE .closeEv (stepE .startConnectEv newAmp)

/-- A handle whose first connect attempt failed with a recorded error
and which was then closed: `unconnected`, `closed`, `err` set. -/
def ampClosedFailed : Amp :=
  stepE .closeEv (stepE (.completeEv (some "refused") 0)
    (stepE .startConnectEv newAmp))

theorem inv_newAmp : Inv newAmp := by
  simp [Inv, newAmp]

theorem handlePing_amp (ch : Nat) (a : Amp) :
    (handlePing ch a).amp = (addStateListener ch (startConnect a)).1 := by
  unfold handlePing
  cases hm : addStateListener ch (startConnect a) with
  | mk a2 outc => cases outc <;> simp [hm]

theorem inv_step (ev : Event) (a : Amp) (hI : Inv a) : Inv (stepE ev a) := by
  obtain ⟨h1, h2, h3, h4⟩ := hI
  cases ev with
  | closeEv =>
      simp only [stepE, close]
      split
      · exact ⟨h1, h2, h3, h4⟩
      · next hc =>
        refine ⟨h1, h2, h3, ?_⟩
        simp only [Bool.not_eq_true] at hc
        simp [hc] at h4
        simp [h4]
  | startConnectEv =>
      simp only [stepE, startConnect]
      split
      · exact ⟨h1, h2, h3, h4⟩
      · exact ⟨by simp, by simp, fun _ => rfl, h4⟩
  | completeEv e id =>
      simp only [stepE]
      split
      · next hf =>
        cases e with
        | none =>
            refine ⟨by simp [connectComplete, setState], ?_, by simp [connectComplete, setState], by simpa [connectComplete, setState] using h4⟩
            intro _; simp [connectComplete, setState]
        | some msg =>
            refine ⟨by simp [connectComplete, setState], ?_, by simp [connectComplete, setState], by simpa [connectComplete, setState] using h4⟩
            intro hco; simp [connectComplete, setState] at hco
      · exact ⟨h1, h2, h3, h4⟩
  | addListenerEv ch =>
      simp only [stepE, addStateListener]
      split
      · next hs => exact ⟨by simpa [hs] using h1, by simp [hs], fun _ => hs, h4⟩
      · exact ⟨h1, h2, h3, h4⟩
  | rawEv req wErr fErr =>
      exact ⟨h1, h2, h3, h4⟩
  | pingEv ch =>
      have hsc : Inv (startConnect a) := by
        simp only [startConnect]
        split
        · exact ⟨h1, h2, h3, h4⟩
        · exact ⟨by simp, by simp, fun _ => rfl, h4⟩
      obtain ⟨g1, g2, g3, g4⟩ := hsc
      rw [stepE, handlePing_amp]
      simp only [addStateListener]
      split
      · next hs => exact ⟨by simpa [hs] using g1, by simp [hs], fun _ => hs, g4⟩
      · exact ⟨g1, g2, g3, g4⟩
  | lineEv l =>
      exact ⟨h1, h2, h3, h4⟩
  | connLossEv =>
      simp only [stepE, startConnect]
      split
      · exact ⟨h1, h2, h3, h4⟩
      · exact ⟨by simp, by simp, fun _ => rfl, h4⟩

theorem inv_reachable (a : Amp) (hR : Reachable a) : Inv a := by
  induction hR with
  | init => exact inv_newAmp
  | step ev b _ ih => exact inv_step ev b ih

/-- Closing is invisible to `startConnect`'s `closed` field. -/
theorem startConnect_closed (a : Amp) : (startConnect a).closed = a.closed := by
  simp only [startConnect]; split <;> rfl

theorem startConnect_err (a : Amp) : (startConnect a).err = a.err := by
  simp only [startConnect]; split <;> rfl

theorem addStateListener_fst_closed (ch : Nat) (a : Amp) :
    ((addStateListener ch a).1).closed = a.closed := by
  simp only [addStateListener]; split <;> rfl

theorem addStateListener_fst_state (ch : Nat) (a : Amp) :
    ((addStateListener ch a).1).state = a.state := by
  simp only [addStateListener]; split <;> rfl

theorem connectComplete_fst_closed (e : Option Err) (id : Nat) (a : Amp) :
    ((connectComplete e id a).1).closed = a.closed := by
  cases e <;> simp [connectComplete, setState]

/-- Once `closed` is set, no event clears it. -/
theorem stepE_preserves_closed (ev : Event) (a : Amp) (h : a.closed = true) :
    (stepE ev a).closed = true := by
  cases ev with
  | closeEv => simp only [stepE, close]; split <;> simp [h]
  | startConnectEv => rw [stepE, startConnect_closed]; exact h
  | completeEv e id =>
      simp only [stepE]; split
      · rw [connectComplete_fst_closed]; exact h
      · exact h
  | addListenerEv ch => rw [stepE, addStateListener_fst_closed]; exact h
  | rawEv req wErr fErr => exact h
  | pingEv ch =>
      rw [stepE, handlePing_amp, addStateListener_fst_closed, startConnect_closed]
      exact h
  | lineEv l => exact h
  | connLossEv => rw [stepE, startConnect_closed]; exact h

/-- Lemma: `startConnect` either leaves the state alone or moves
`unconnected` to `connecting`. -/
theorem startConnect_trans (a : Amp) : stateTransOK a.state (startConnect a).state := by
  simp only [startConnect]
  split
  · left; rfl
  · next hc =>
    simp only [Bool.or_eq_true, not_or, bne_iff_ne, ne_eq, not_not,
      Bool.not_eq_true] at hc
    right; left; exact ⟨hc.2, rfl⟩

/-- The wire trace of a run is the concatenation of the whole written
commands, in order: no command's bytes are split or interleaved. -/
theorem runTrace_eq_join (evts : List Event) (a : Amp) :
    (runTrace evts a).2 = (writtenCommands evts a).flatten := by
  induction evts generalizing a with
  | nil => rfl
  | cons ev rest ih =>
    cases ev with
    | rawEv req wErr fErr =>
      by_cases hs : a.state = .connected
      · simp [runTrace, writtenCommands, wireOf, handleRaw, hs, ih]
      · simp [runTrace, writtenCommands, wireOf, handleRaw, bne_iff_ne, hs, ih]
    | closeEv => simp [runTrace, writtenCommands, wireOf, ih]
    | startConnectEv => simp [runTrace, writtenCommands, wireOf, ih]
    | completeEv e id => simp [runTrace, writtenCommands, wireOf, ih]
    | addListenerEv ch => simp [runTrace, writtenCommands, wireOf, ih]
    | pingEv ch => simp [runTrace, writtenCommands, wireOf, ih]
    | lineEv l => simp [runTrace, writtenCommands, wireOf, ih]
    | connLossEv => simp [runTrace, writtenCommands, wireOf, ih]

/-- The written commands of a run are, in arrival order, a selection of
the encoded payloads the raw-request events carried. -/
theorem writtenCommands_sublist (evts : List Event) (a : Amp) :
    List.Sublist (writtenCommands evts a) (evts.filterMap rawEnc) := by
  induction evts generalizing a with
  | nil => simp [writtenCommands]
  | cons ev rest ih =>
    cases ev with
    | rawEv req wErr fErr =>
      by_cases hs : a.state = .connected
      · simpa [writtenCommands, rawEnc, hs] using
          List.Sublist.cons₂ (encodeRaw req.raw) (ih a)
      · simpa [writtenCommands, rawEnc, hs] using
          List.Sublist.cons (encodeRaw req.raw) (ih a)
    | closeEv => simpa [writtenCommands, rawEnc] using ih _
    | startConnectEv => simpa [writtenCommands, rawEnc] using ih _
    | completeEv e id => simpa [writtenCommands, rawEnc] using ih _
    | addListenerEv ch => simpa [writtenCommands, rawEnc] using ih _
    | pingEv ch => simpa [writtenCommands, rawEnc] using ih _
    | lineEv l => simpa [writtenCommands, rawEnc] using ih _
    | connLossEv => simpa [writtenCommands, rawEnc] using ih _

/-- C1.  The claim says a read failure delivered while `connected` moves
the state to `unconnected` and a later `SendCommand` triggers a fresh
attempt.  The code does neither: the loop answers a loss signal with
`startConnect`, which is a no-op unless the state is `unconnected`, and
nothing ever moves the state out of `connected`.  At the failing input —
a loss signal right after a successful connect — the state stays
`connected`, the dead connection (id 0) stays installed, no fresh
attempt starts, and a subsequent raw command is written through the dead
connection. -/
theorem c1_loss_while_connected_is_noop :
    Reachable ampConnected ∧
    ampConnected.state = .connected ∧
    ampConnected.conn = some 0 ∧
    stepE .connLossEv ampConnected = ampConnected ∧
    startConnect ampConnected = ampConnected ∧
    (handleRaw ⟨5, .rawCmd, ['Z']⟩ none none ampConnected).wrote =
      some ['Z', delim] :=
  ⟨Reachable.step _ _ (Reachable.step _ _ Reachable.init),
   by decide, by decide, by decide, by decide, by decide⟩

/-- C2, counterexample.  After `Close`, a `SendCommand`/`Ping` is not
answered with a "not connected" error and is not quietly rejected: its
send on the closed request channel is a Go run-time panic, so the call
crashes. -/
theorem c2_counterexample :
    ampAfterClose.closed = true ∧
    (enqueueRequest ampAfterClose).2 = .panicked ∧
    (enqueueRequest ampAfterClose).2 ≠ .enqueued := by
  decide

/-- C2, amended.  After `Close`, no further request is accepted, but not
gracefully: on every closed handle, a subsequent `SendCommand` or
`Probe` panics (crashes) when it sends the request on the closed request
channel, rather than returning the "not connected" error. -/
theorem c2_amended_requests_rejected_by_panic (a : Amp) (h : a.closed = true) :
    (enqueueRequest a).2 = .panicked := by
  simp [enqueueRequest, startConnect, h]

/-- C2, witness for the amended claim at the concrete closed handle. -/
theorem c2_witness :
    ampAfterClose.closed = true ∧ (enqueueRequest ampAfterClose).2 = .panicked :=
  ⟨by decide, c2_amended_requests_rejected_by_panic ampAfterClose (by decide)⟩

/-- C3.  While one attempt is in flight (`connecting`), the attempt's
completion signals every registered waiter exactly once — the send list
is exactly the listener list paired with the one outcome — the listener
collection is cleared on the transition out of `connecting`, and a
caller's `startConnect` is a no-op, so no duplicate transport attempt
starts. -/
theorem c3_waiter_fanout (a : Amp) (e : Option Err) (id : Nat)
    (h : a.state = .connecting) :
    (connectComplete e id a).2 = a.stateListeners.map (fun ch => (ch, e)) ∧
    (connectComplete e id a).1.stateListeners = [] ∧
    startConnect a = a := by
  refine ⟨?_, ?_, ?_⟩
  · cases e <;> simp [connectComplete, setState]
  · cases e <;> simp [connectComplete, setState]
  · simp [startConnect, h]

/-- C3, witness: a handle with two registered waiters and a failing
attempt. -/
theorem c3_witness :
    (connectComplete (some "boom") 0 ampConnecting2).2 =
      ampConnecting2.stateListeners.map (fun ch => (ch, some "boom")) ∧
    (connectComplete (some "boom") 0 ampConnecting2).1.stateListeners = [] ∧
    startConnect ampConnecting2 = ampConnecting2 :=
  c3_waiter_fanout ampConnecting2 (some "boom") 0 (by decide)

/-- Claim C4, code_bug evidence.  The claim says a Probe whose waiter
registration happens after the completion transition (state `connected`
or `unconnected`, no longer `connecting`) receives the recorded last
connection error immediately and returns that outcome.  The code cannot
deliver it: `addStateListener`'s else branch sends on the unbuffered
waiter channel with the mutex held, and the channel's only receive runs
after the call returns, so the send never completes and the loop
goroutine deadlocks.  At the reachable closed handle with recorded
error "refused", a Probe registers nothing, is sent no reply at all
(its caller blocks forever), and wedges the loop; at the connected
handle the only reply ever sent is the early nil from before the
registration — in neither case does the registration path deliver the
recorded error. -/
theorem c4_late_probe_deadlocks :
    Reachable ampClosedFailed ∧
    ampClosedFailed.state = .unconnected ∧
    ampClosedFailed.err = some "refused" ∧
    (addStateListener 7 ampClosedFailed).2 = .blockedSend (some "refused") ∧
    handlePing 7 ampClosedFailed =
      { amp := ampClosedFailed, immediateReplies := [],
        registeredWaiter := false, deadlocked := true } ∧
    handlePing 9 ampConnected =
      { amp := ampConnected, immediateReplies := [none],
        registeredWaiter := false, deadlocked := true } :=
  ⟨Reachable.step _ _ (Reachable.step _ _ (Reachable.step _ _ Reachable.init)),
   by decide, by decide, by decide, by decide, by decide⟩

/-- C5.  A raw command processed while the state is not `connected` is
answered immediately with the "not connected" error, nothing is written
or flushed, and the shared state is untouched — the command is dropped,
not queued, and the request never waits for a pending attempt. -/
theorem c5_not_connected_immediate_error (req : Request) (wErr fErr : Option Err)
    (a : Amp) (h : a.state ≠ .connected) :
    handleRaw req wErr fErr a =
      { reply := some notConnectedErr, wrote := none, flushed := false } ∧
    stepE (.rawEv req wErr fErr) a = a := by
  refine ⟨?_, rfl⟩
  simp [handleRaw, bne_iff_ne, h]

/-- C5, witness: a raw command arriving while the first attempt is still
in flight. -/
theorem c5_witness :
    handleRaw ⟨3, .rawCmd, ['P','W']⟩ none none ampConnecting2 =
      { reply := some notConnectedErr, wrote := none, flushed := false } ∧
    stepE (.rawEv ⟨3, .rawCmd, ['P','W']⟩ none none) ampConnecting2 =
      ampConnecting2 :=
  c5_not_connected_immediate_error ⟨3, .rawCmd, ['P','W']⟩ none none
    ampConnecting2 (by decide)

/-- C6.  Writes happen only inside the control loop: over any event
sequence (the serialization order of the loop's receives), the wire
trace is exactly the concatenation of whole encoded commands, in arrival
order, and those blocks are an in-order selection of the raw requests'
encoded payloads — two commands can never interleave their bytes. -/
theorem c6_writes_serialized (evts : List Event) (a : Amp) :
    (runTrace evts a).2 = (writtenCommands evts a).flatten ∧
    List.Sublist (writtenCommands evts a) (evts.filterMap rawEnc) :=
  ⟨runTrace_eq_join evts a, writtenCommands_sublist evts a⟩

/-- C7.  A command written while `connected` is the encoded payload: one
delimiter is appended when the payload lacks a trailing delimiter, and a
payload already ending in the delimiter goes out unchanged. -/
theorem c7_delimiter (req : Request) (wErr fErr : Option Err) (a : Amp)
    (h : a.state = .connected) :
    (handleRaw req wErr fErr a).wrote = some (encodeRaw req.raw) ∧
    (endsWithCR req.raw = false → encodeRaw req.raw = req.raw ++ [delim]) ∧
    (endsWithCR req.raw = true → encodeRaw req.raw = req.raw) := by
  refine ⟨by simp [handleRaw, h], fun hn => ?_, fun hy => ?_⟩
  · simp [encodeRaw, hn]
  · simp [encodeRaw, hy]

/-- C7, witness at a connected handle. -/
theorem c7_witness :
    (handleRaw ⟨1, .rawCmd, ['M','V']⟩ none none ampConnected).wrote =
      some (encodeRaw ['M','V']) ∧
    (endsWithCR ['M','V'] = false → encodeRaw ['M','V'] = ['M','V'] ++ [delim]) ∧
    (endsWithCR ['M','V'] = true → encodeRaw ['M','V'] = ['M','V']) :=
  c7_delimiter ⟨1, .rawCmd, ['M','V']⟩ none none ampConnected (by decide)

/-- C8.  Every event moves `connectionState` along the strict relation
`unconnected → connecting → (connected or unconnected)` (or leaves it in
place); `startConnect` changes the state only by moving `unconnected` to
`connecting`; and an attempt completion happens only from `connecting`
and lands on `connected` exactly when the dial succeeded. -/
theorem c8_state_transitions (ev : Event) (a : Amp) (hR : Reachable a) :
    stateTransOK a.state (stepE ev a).state ∧
    ((startConnect a).state ≠ a.state →
      a.state = .unconnected ∧ (startConnect a).state = .connecting) ∧
    (∀ (e : Option Err) (id : Nat), a.attemptInFlight = true →
      a.state = .connecting ∧
      (stepE (.completeEv e id) a).state =
        (if e = none then State.connected else State.unconnected)) := by
  obtain ⟨h1, -, -, -⟩ := inv_reachable a hR
  refine ⟨?_, ?_, ?_⟩
  · cases ev with
    | closeEv =>
        have hs : (stepE .closeEv a).state = a.state := by
          simp only [stepE, close]; split <;> rfl
        rw [hs]; left; rfl
    | startConnectEv => exact startConnect_trans a
    | completeEv e id =>
        simp only [stepE]
        split
        · next hf =>
          right; right
          refine ⟨h1.mp hf, ?_⟩
          cases e with
          | none => left; simp [connectComplete, setState]
          | some m => right; simp [connectComplete, setState]
        · left; rfl
    | addListenerEv ch =>
        rw [stepE, addStateListener_fst_state]; left; rfl
    | rawEv req wErr fErr => left; rfl
    | pingEv ch =>
        rw [stepE, handlePing_amp, addStateListener_fst_state]
        exact startConnect_trans a
    | lineEv l => left; rfl
    | connLossEv => exact startConnect_trans a
  · intro hne
    rcases startConnect_trans a with heq | hmove | hmove
    · exact absurd heq.symm hne
    · exact hmove
    · exfalso
      revert hne
      simp only [startConnect]
      split
      · exact fun hne => hne rfl
      · next hc =>
        simp only [Bool.or_eq_true, not_or, bne_iff_ne, ne_eq, not_not,
          Bool.not_eq_true] at hc
        rw [hc.2] at hmove
        cases hmove.1
  · intro e id hf
    refine ⟨h1.mp hf, ?_⟩
    simp only [stepE, hf, if_pos]
    cases e with
    | none => simp [connectComplete, setState]
    | some m => simp [connectComplete, setState]

/-- C8, witness: the successful completion step out of a `connecting`
handle with waiters. -/
theorem c8_witness :
    stateTransOK ampConnecting2.state
      (stepE (.completeEv none 3) ampConnecting2).state ∧
    ((startConnect ampConnecting2).state ≠ ampConnecting2.state →
      ampConnecting2.state = .unconnected ∧
      (startConnect ampConnecting2).state = .connecting) ∧
    (∀ (e : Option Err) (id : Nat), ampConnecting2.attemptInFlight = true →
      ampConnecting2.state = .connecting ∧
      (stepE (.completeEv e id) ampConnecting2).state =
        (if e = none then State.connected else State.unconnected)) :=
  c8_state_transitions (.completeEv none 3) ampConnecting2
    (Reachable.step _ _ (Reachable.step _ _ (Reachable.step _ _ Reachable.init)))

/-- C9.  `Close` always returns nil; the first call sets `closed`,
closes the request channel and the current connection's stream if one
exists; a second call is a no-op returning nil; afterwards the request
channel has been closed exactly once; and once `closed` is set no event
clears it. -/
theorem c9_close_idempotent (a : Amp) (ev : Event) (hR : Reachable a) :
    (close a).2.1 = none ∧
    (a.closed = false →
      (close a).1.closed = true ∧ (close a).2.2 = ⟨true, a.conn⟩) ∧
    close ((close a).1) = ((close a).1, none, ⟨false, none⟩) ∧
    (close a).1.reqcCloseCount = 1 ∧
    (a.closed = true → (stepE ev a).closed = true) := by
  obtain ⟨-, -, -, h4⟩ := inv_reachable a hR
  by_cases hc : a.closed
  · refine ⟨?_, ?_, ?_, ?_, fun _ => stepE_preserves_closed ev a hc⟩
    · simp [close, hc]
    · intro hfalse; rw [hc] at hfalse; cases hfalse
    · simp [close, hc]
    · simp only [close, hc, if_pos]; rw [h4]; simp [hc]
  · simp only [Bool.not_eq_true] at hc
    refine ⟨?_, ?_, ?_, ?_, fun htrue => absurd htrue (by simp [hc])⟩
    · simp [close, hc]
    · intro _; simp [close, hc]
    · simp [close, hc]
    · simp only [close, hc]; simp; rw [h4]; simp [hc]

/-- C9, witness at a connected handle (first close actually tears the
connection down), checked against a subsequent `startConnect` event. -/
theorem c9_witness :
    (close ampConnected).2.1 = none ∧
    (ampConnected.closed = false →
      (close ampConnected).1.closed = true ∧
      (close ampConnected).2.2 = ⟨true, ampConnected.conn⟩) ∧
    close ((close ampConnected).1) =
      ((close ampConnected).1, none, ⟨false, none⟩) ∧
    (close ampConnected).1.reqcCloseCount = 1 ∧
    (ampConnected.closed = true →
      (stepE .startConnectEv ampConnected).closed = true) :=
  c9_close_idempotent ampConnected .startConnectEv
    (Reachable.step _ _ (Reachable.step _ _ Reachable.init))

/-- C10.  A raw command processed while `connected` is answered with nil
unconditionally: the `error` results of the buffered write and the flush
(`wErr`, `fErr`) are discarded by the code and never reach the reply. -/
theorem c10_write_errors_discarded (req : Request) (wErr fErr : Option Err)
    (a : Amp) (h : a.state = .connected) :
    (handleRaw req wErr fErr a).reply = none := by
  simp [handleRaw, h]

/-- C10, witness: both the write and the flush fail, the caller still
gets nil. -/
theorem c10_witness :
    (handleRaw ⟨2, .rawCmd, ['P','W']⟩ (some "EPIPE") (some "EPIPE")
        ampConnected).reply = none :=
  c10_write_errors_discarded ⟨2, .rawCmd, ['P','W']⟩ (some "EPIPE")
    (some "EPIPE") ampConnected (by decide)

end Avr
